import Mathlib

/-!
A shallow embedding of the semantic-annotation core of the `respec` repository:
the WebIDL identifier resolver and definition linker (`src/core/webidl.js`)
and the cross-reference resolver (`src/core/xref.js`), together with theorems
checking the natural-language specification against this embedding.

Conventions for the embedding of JavaScript:
- JS strings are Lean `String`s; an absent (`undefined`) name is modelled as `""`
  (the code only distinguishes them through truthiness or template interpolation,
  and every reachable node kind has a string (possibly empty) name).
- JS objects used as counter dictionaries are association lists `List (String × Nat)`
  read through `getNum`, where a missing key and a key set to `0` are both read
  as `0` (both are falsy in JS, and the code initialises missing keys to `0`
  before incrementing, so this is observationally exact).
- The `WeakMap` memo keyed by node identity is an association list keyed by an
  explicit `nodeId : Nat` carried on each node.
- A thrown JS exception is a `JsResult.thrown`.
-/

namespace Respec

/-! ### JS string primitives -/

/-- JS `s.toLowerCase()` (over the character list, so that it reduces in the
kernel; agrees with `String.toLower`). -/
def jsToLower (s : String) : String :=
  ⟨s.data.map Char.toLower⟩

/-- JS `s.includes(c)` for a single-character needle. -/
def jsIncludes (s : String) (c : Char) : Bool :=
  s.data.contains c

/-- Split a character list at every occurrence of `sep`: always returns at
least one (possibly empty) piece. -/
def splitChar (sep : Char) : List Char → List (List Char)
  | [] => [[]]
  | c :: rest =>
    if c = sep then [] :: splitChar sep rest
    else
      match splitChar sep rest with
      | [] => [[c]]
      | p :: ps => (c :: p) :: ps

/-- JS `s.split(c)` for a single-character separator: always returns at least
one piece; `"".split(c)` is `[""]`. -/
def jsSplit (s : String) (c : Char) : List String :=
  (splitChar c s.data).map (fun l => ⟨l⟩)

/-- JS `s.split(c, limit)`: the split truncated to its first `limit` pieces. -/
def jsSplitLimit (s : String) (c : Char) (limit : Nat) : List String :=
  (jsSplit s c).take limit

/-- Decimal digit character. -/
def digitChar : Nat → Char
  | 0 => '0' | 1 => '1' | 2 => '2' | 3 => '3' | 4 => '4'
  | 5 => '5' | 6 => '6' | 7 => '7' | 8 => '8' | _ => '9'

/-- Fuel-driven decimal digit list (most significant first), structurally
recursive so that it reduces inside the kernel. -/
def natDigitsCore : Nat → Nat → List Char → List Char
  | 0, _, acc => acc
  | fuel + 1, n, acc =>
    if n < 10 then digitChar n :: acc
    else natDigitsCore fuel (n / 10) (digitChar (n % 10) :: acc)

/-- Reference version of the decimal digit list, by well-founded recursion. -/
def natDigitsR (n : Nat) : List Char :=
  if _h : n < 10 then [digitChar n]
  else natDigitsR (n / 10) ++ [digitChar (n % 10)]
decreasing_by exact Nat.div_lt_self (by omega) (by omega)

/-- JS number-to-string conversion for natural numbers (decimal notation),
as used by template literals such as the overload and partial suffixes. -/
def jsNatRepr (n : Nat) : String :=
  ⟨natDigitsCore (n + 1) n []⟩

/-! ### Data model: WebIDL definition nodes (`src/core/webidl.js`) -/

/-- A parsed WebIDL definition node as consumed by the identifier resolver and
definition linker.  `nodeId` is the node's object identity (the `WeakMap` key);
`pflag` models `defn.partial`; `arguments` is the ordered list of argument
names; `extAttrs` the list of extended-attribute names. -/
structure IdlDefn where
  nodeId : Nat
  type : String
  name : String
  value : String
  pflag : Bool
  arguments : List String
  extAttrs : List String
deriving DecidableEq

/-- `getDefnName` of `src/core/webidl.js`: enum values use their value text,
operations their own name, and everything else `defn.name || defn.type`. -/
def getDefnName (d : IdlDefn) : String :=
  match d.type with
  | "enum-value" => d.value
  | "operation" => d.name
  | _ => if d.name = "" then d.type else d.name

/-- `getIdlId` of `src/core/webidl.js`. -/
def getIdlId (name parentName : String) : String :=
  if parentName = "" then "idl-def-" ++ jsToLower name
  else "idl-def-" ++ jsToLower parentName ++ "-" ++ jsToLower name

/-- A resolved identity, the `{name, idlId}` record. -/
structure Resolved where
  name : String
  idlId : String
deriving DecidableEq

/-- A JS object used as a string-keyed counter dictionary. -/
abbrev CounterMap := List (String × Nat)

/-- Read a counter; a missing key reads as `0` (falsy, like `undefined`). -/
def getNum (m : CounterMap) (k : String) : Nat :=
  (m.lookup k).getD 0

/-- Write a counter. -/
def setNum (m : CounterMap) (k : String) (v : Nat) : CounterMap :=
  (k, v) :: m.filter (fun p => p.1 != k)

/-- The `IDLNameMap` state: the `WeakMap` memo plus the two counter
dictionaries `operationNames` and `idlPartials` (here `pcounters`). -/
structure IDLNameMap where
  memo : List (Nat × Resolved)
  operationNames : CounterMap
  pcounters : CounterMap
deriving DecidableEq

/-- A fresh `IDLNameMap`, as built by the constructor. -/
def freshMap : IDLNameMap := ⟨[], [], []⟩

/-- `IDLNameMap.resolvePartial`: no suffix for non-partial nodes; otherwise
increment the per-name counter (initialising a falsy entry to 0 first) and
return `-partial-<count>` with the incremented count. -/
def resolvePart (st : CounterMap) (d : IdlDefn) : String × CounterMap :=
  if !d.pflag then ("", st)
  else
    let k := getNum st d.name + 1
    ("-partial-" ++ jsNatRepr k, setNum st d.name k)

/-- `IDLNameMap.resolveOverload`: keys `parent.name` and `parent.name()` are
initialised to 0 if falsy; the overload suffix uses the pre-increment count of
`parent.name` when it is non-zero; finally both keys are incremented. -/
def resolveOverload (ops : CounterMap) (name parentName : String) :
    String × CounterMap :=
  let qualifiedName := parentName ++ "." ++ name
  let fullyQualifiedName := qualifiedName ++ "()"
  let q := getNum ops qualifiedName
  let f := getNum ops fullyQualifiedName
  let overload := if q = 0 then "" else "!overload-" ++ jsNatRepr q
  let ops1 := setNum ops fullyQualifiedName (f + 1)
  let ops2 := setNum ops1 qualifiedName (q + 1)
  (overload, ops2)

/-- `IDLNameMap.resolveNameAndId`. -/
def resolveNameAndId (st : IDLNameMap) (d : IdlDefn) (parent : String) :
    Resolved × IDLNameMap :=
  let name := getDefnName d
  let idlId := getIdlId name parent
  match d.type with
  | "callback interface" | "dictionary" | "interface" | "interface mixin" =>
    let sp := resolvePart st.pcounters d
    (⟨name, idlId ++ sp.1⟩, { st with pcounters := sp.2 })
  | "constructor" | "operation" =>
    let ov := resolveOverload st.operationNames name parent
    if ov.1 ≠ "" then
      (⟨name ++ ov.1, idlId ++ ov.1⟩, { st with operationNames := ov.2 })
    else if !d.arguments.isEmpty then
      (⟨name, idlId ++ String.join (d.arguments.map (fun a => "-" ++ jsToLower a))⟩,
        { st with operationNames := ov.2 })
    else
      (⟨name, idlId⟩, { st with operationNames := ov.2 })
  | _ => (⟨name, idlId⟩, st)

/-- `IDLNameMap.getNameAndId`: memo hit returns the cached record unchanged;
otherwise resolve and memoize. -/
def getNameAndId (st : IDLNameMap) (d : IdlDefn) (parent : String) :
    Resolved × IDLNameMap :=
  match st.memo.lookup d.nodeId with
  | some r => (r, st)
  | none =>
    let rs := resolveNameAndId st d parent
    (rs.1, { rs.2 with memo := (d.nodeId, rs.1) :: rs.2.memo })

/-- Run `getNameAndId` over a list of (node, parent-name) pairs, collecting
the resolved records and threading the state. -/
def runAll (st : IDLNameMap) : List (IdlDefn × String) → List Resolved × IDLNameMap
  | [] => ([], st)
  | dp :: rest =>
    let rs := getNameAndId st dp.1 dp.2
    let rec' := runAll rs.2 rest
    (rs.1 :: rec'.1, rec'.2)

/-- The canonical family of `n` distinct operation/constructor nodes sharing
one fully-qualified name, with node identities `base, base+1, …` and per-node
argument-name lists `args`. -/
def opFamilyFrom (ty nm parent : String) (args : Nat → List String) :
    Nat → Nat → List (IdlDefn × String)
  | _, 0 => []
  | base, n + 1 =>
    (⟨base, ty, nm, "", false, args base, []⟩, parent) ::
      opFamilyFrom ty nm parent args (base + 1) n

/-- The canonical family of `n` distinct partial container nodes sharing a
base name, with node identities `base, base+1, …`. -/
def partFamilyFrom (ty nm parent : String) : Nat → Nat → List (IdlDefn × String)
  | _, 0 => []
  | base, n + 1 =>
    (⟨base, ty, nm, "", true, [], []⟩, parent) ::
      partFamilyFrom ty nm parent (base + 1) n

/-- The overload suffix appended at the `k`-th (0-based) resolution of one
qualified operation name: nothing the first time, `!overload-<k>` afterwards. -/
def ovSuffix (k : Nat) : String :=
  if k = 0 then "" else "!overload-" ++ jsNatRepr k

/-- The id-only suffix contributed by an operation's arguments when it is not
an overload occurrence. -/
def argIdSuffix (l : List String) : String :=
  if l.isEmpty then "" else String.join (l.map (fun a => "-" ++ jsToLower a))

/-! ### Definition linker (`defineIdlName` of `src/core/webidl.js`) -/

/-- Which of the four kinds of output node `defineIdlName` produced. -/
inductive LinkKind
  | linkToExisting
  | defaultJSONLink
  | newDefinition
  | unlinkedAnchor
deriving DecidableEq

/-- The observable outcome of `defineIdlName`: the kind of node rendered,
whether `showInlineWarning` was called, and whether `registerDefinition`
was called. -/
structure DefineOutput where
  kind : LinkKind
  warned : Bool
  registered : Bool
deriving DecidableEq

/-- `defineIdlName`: `dfnFound` is the answer of the external definition
registry (`findDfn`).  Mirrors the source's branch order: existing definition,
default-`toJSON` special case, new definition for non-partial nodes, and the
unlinked anchor with its warning guard. -/
def defineIdlName (st : IDLNameMap) (d : IdlDefn) (parent : String)
    (dfnFound : Bool) : DefineOutput × IDLNameMap :=
  let rs := getNameAndId st d parent
  let name := rs.1.name
  if dfnFound then (⟨.linkToExisting, false, false⟩, rs.2)
  else if d.type == "operation" && d.name == "toJSON"
      && d.extAttrs.contains "Default" then
    (⟨.defaultJSONLink, false, false⟩, rs.2)
  else if !d.pflag then (⟨.newDefinition, false, true⟩, rs.2)
  else
    let showWarnings :=
      (name != "") && (d.type != "typedef") && !(d.pflag && !dfnFound)
    (⟨.unlinkedAnchor, showWarnings, false⟩, rs.2)

/-! ### Xref resolver (`src/core/xref.js`) -/

/-- A candidate match returned by the external lookup. -/
structure Candidate where
  uri : String
  spec : String
  type : String
  normative : Bool
deriving DecidableEq

/-- The observable outcome of `disambiguate`: the accepted candidate (if any),
whether the element was marked `respec-offending-element`, and whether a
`console.warn` diagnostic was logged. -/
structure DisambigOutput where
  accepted : Option Candidate
  offending : Bool
  warned : Bool
deriving DecidableEq

/-- `disambiguate`: empty data is left alone; a single candidate is rejected
exactly when a non-empty `specs` constraint excludes its spec; two or more
candidates are always rejected as ambiguous. -/
def disambiguate (data : List Candidate) (specs : List String) : DisambigOutput :=
  match data with
  | [] => ⟨none, false, false⟩
  | c :: rest =>
    if rest.isEmpty then
      if (specs.length != 0) && !(specs.contains c.spec) then ⟨none, true, true⟩
      else ⟨some c, false, false⟩
    else ⟨none, true, true⟩

/-- One occurrence entry from `conf.xrefs`: its `specs` constraint and whether
the element sits inside an `.informative` region. -/
structure XrefEntry where
  specs : List String
  informative : Bool
deriving DecidableEq

/-- The `{cite, citePath, citeFrag}` metadata written onto an occurrence;
`citeFrag` is `none` when the path contains no `#` (JS `undefined`). -/
structure CiteMeta where
  cite : String
  citePath : String
  citeFrag : Option String
deriving DecidableEq

/-- The observable outcome of one iteration of the `addDataCiteToTerms` loop
body for one occurrence. -/
structure StepOutput where
  meta : Option CiteMeta
  offending : Bool
  warned : Bool
  normAdd : Option String
  infAdd : Option String
deriving DecidableEq

/-- The result of running a piece of JS that may throw. -/
inductive JsResult (α : Type) where
  | thrown (msg : String)
  | value (v : α)
deriving DecidableEq

/-- One iteration of the `addDataCiteToTerms` inner loop for one occurrence.
The path computation mirrors the source exactly:
`const path = uri.includes("/") ? uri.split("/", 1)[1] : uri;`
`uri.split("/", 1)` keeps only the first piece, so element `[1]` is
`undefined`, and the subsequent `path.split("#")` throws a `TypeError`. -/
def addDataCiteStep (data : List Candidate) (entry : XrefEntry) :
    JsResult StepOutput :=
  let dres := disambiguate data entry.specs
  match dres.accepted with
  | none => .value ⟨none, dres.offending, dres.warned, none, none⟩
  | some c =>
    let normAdd := if c.normative then some c.spec else none
    let infAdd := if !c.normative && entry.informative then some c.spec else none
    let ctxWarn := !c.normative && !entry.informative
    match (if jsIncludes c.uri '/' then (jsSplitLimit c.uri '/' 1).get? 1
           else some c.uri) with
    | none => .thrown "TypeError: cannot read split of undefined"
    | some path =>
      let parts := jsSplit path '#'
      .value ⟨some ⟨c.spec, parts.headD "", parts.get? 1⟩,
        dres.offending, dres.warned || ctxWarn, normAdd, infAdd⟩

/-- `addDataCiteToTerms` restricted to the entries of one term: the `forEach`
body applied in order; a thrown exception propagates (the run aborts). -/
def addDataCiteEntries (data : List Candidate) :
    List XrefEntry → JsResult (List StepOutput)
  | [] => .value []
  | e :: rest =>
    match addDataCiteStep data e with
    | .thrown m => .thrown m
    | .value v =>
      match addDataCiteEntries data rest with
      | .thrown m => .thrown m
      | .value vs => .value (v :: vs)

/-- Modelled from the spec: "Derive a display path and fragment by splitting
the candidate's `uri` on its first path separator and then on `#`, and write
`(cite: spec, citePath, citeFrag)` onto the occurrence's metadata."  The
portion after the first `/` (the whole `uri` when it has none) is split on
`#` into `citePath` and `citeFrag`. -/
def citeMetaSpec (uri spec' : String) : CiteMeta :=
  let path :=
    if jsIncludes uri '/' then String.intercalate "/" ((jsSplit uri '/').tail)
    else uri
  let parts := jsSplit path '#'
  ⟨spec', parts.headD "", parts.get? 1⟩

end Respec

namespace Respec

/-! ### Helper lemmas: strings and decimal notation -/

theorem string_append_empty (s : String) : s ++ "" = s := by
  apply String.ext
  rw [String.data_append]
  simp

theorem string_append_cancel_left {s a b : String} (h : s ++ a = s ++ b) : a = b := by
  apply String.ext
  have hd := congrArg String.data h
  rw [String.data_append, String.data_append] at hd
  exact List.append_cancel_left hd

theorem qualified_ne_call_form (qn : String) : qn ≠ qn ++ "()" := by
  intro h
  have hd := congrArg String.data h
  rw [String.data_append] at hd
  have hl := congrArg List.length hd
  have h2 : ("()" : String).data.length = 2 := rfl
  rw [List.length_append, h2] at hl
  omega

theorem natDigitsR_eq (n : Nat) :
    natDigitsR n =
      if n < 10 then [digitChar n] else natDigitsR (n / 10) ++ [digitChar (n % 10)] := by
  rw [natDigitsR]
  by_cases h : n < 10 <;> simp [h]

theorem natDigitsR_ne_nil (n : Nat) : natDigitsR n ≠ [] := by
  rw [natDigitsR_eq]
  by_cases h : n < 10 <;> simp [h]

theorem natDigitsCore_eq_r (fuel n : Nat) (acc : List Char) (h : n < fuel) :
    natDigitsCore fuel n acc = natDigitsR n ++ acc := by
  induction fuel generalizing n acc with
  | zero => omega
  | succ f ih =>
    by_cases h10 : n < 10
    · rw [natDigitsCore, natDigitsR_eq]
      simp [h10]
    · rw [natDigitsCore, natDigitsR_eq n]
      simp only [h10, if_false, if_neg]
      rw [ih (n / 10) _ (by omega)]
      simp

theorem jsNatRepr_eq (n : Nat) : jsNatRepr n = ⟨natDigitsR n⟩ := by
  unfold jsNatRepr
  rw [natDigitsCore_eq_r (n + 1) n [] (by omega)]
  simp

theorem digitChar_inj :
    ∀ d, d < 10 → ∀ e, e < 10 → digitChar d = digitChar e → d = e := by decide

theorem natDigitsR_inj : ∀ m n : Nat, natDigitsR m = natDigitsR n → m = n := by
  intro m
  induction m using Nat.strong_induction_on with
  | _ m ih =>
    intro n h
    rw [natDigitsR_eq m, natDigitsR_eq n] at h
    by_cases hm : m < 10 <;> by_cases hn : n < 10
    · simp [hm, hn] at h
      exact digitChar_inj m hm n hn h
    · exfalso
      simp only [hm, hn, if_true, if_false] at h
      have hl := congrArg List.length h
      simp at hl
      exact natDigitsR_ne_nil (n / 10) hl
    · exfalso
      simp only [hm, hn, if_true, if_false] at h
      have hl := congrArg List.length h
      simp at hl
      exact natDigitsR_ne_nil (m / 10) hl
    · simp only [hm, hn, if_false] at h
      obtain ⟨h1, h2⟩ := List.append_inj' h rfl
      simp only [List.cons.injEq, and_true] at h2
      have hmod : m % 10 = n % 10 :=
        digitChar_inj (m % 10) (Nat.mod_lt m (by omega)) (n % 10) (Nat.mod_lt n (by omega)) h2
      have hdiv : m / 10 = n / 10 :=
        ih (m / 10) (Nat.div_lt_self (by omega) (by omega)) (n / 10) h1
      omega

theorem jsNatRepr_inj {m n : Nat} (h : jsNatRepr m = jsNatRepr n) : m = n := by
  rw [jsNatRepr_eq, jsNatRepr_eq] at h
  exact natDigitsR_inj m n (String.ext_iff.mp h)

theorem jsNatRepr_data_ne_nil (n : Nat) : (jsNatRepr n).data ≠ [] := by
  rw [jsNatRepr_eq]
  exact natDigitsR_ne_nil n

theorem ovSuffix_zero : ovSuffix 0 = "" := rfl

theorem ovSuffix_ne_empty {k : Nat} (hk : k ≠ 0) : ovSuffix k ≠ "" := by
  unfold ovSuffix
  simp only [hk, if_false, if_neg]
  intro h
  have hd := congrArg String.data h
  rw [String.data_append] at hd
  exact absurd (List.append_eq_nil.mp hd).1 (by decide)

theorem ovSuffix_inj {k l : Nat} (h : ovSuffix k = ovSuffix l) : k = l := by
  by_cases hk : k = 0 <;> by_cases hl : l = 0
  · omega
  · exact absurd (ovSuffix_zero ▸ hk ▸ h).symm (ovSuffix_ne_empty hl)
  · exact absurd (ovSuffix_zero ▸ hl ▸ h) (ovSuffix_ne_empty hk)
  · unfold ovSuffix at h
    simp only [hk, hl, if_false, if_neg] at h
    exact jsNatRepr_inj (string_append_cancel_left h)

/-! ### Helper lemmas: counter dictionaries -/

theorem lookup_filter_ne (m : CounterMap) (k k' : String) (h : k' ≠ k) :
    (m.filter (fun p => p.1 != k)).lookup k' = m.lookup k' := by
  induction m with
  | nil => rfl
  | cons p rest ih =>
    by_cases hp : p.1 = k
    · simp [List.filter_cons, hp, List.lookup, ih, bne_self_eq_false,
        show (k' == k) = false by simp [h]]
    · simp only [List.filter_cons]
      rw [if_pos (by simp [hp])]
      by_cases hk : k' = p.1
      · simp [List.lookup, hk]
      · simp [List.lookup, show (k' == p.1) = false by simp [hk], ih]

theorem getNum_setNum_self (m : CounterMap) (k : String) (v : Nat) :
    getNum (setNum m k v) k = v := by
  simp [getNum, setNum, List.lookup]

theorem getNum_setNum_ne (m : CounterMap) (k k' : String) (v : Nat) (h : k' ≠ k) :
    getNum (setNum m k v) k' = getNum m k' := by
  simp only [getNum, setNum, List.lookup, show (k' == k) = false by simp [h]]
  rw [lookup_filter_ne m k k' h]

end Respec

namespace Respec

/-! ### Helper lemmas: the identifier resolver -/

theorem getDefnName_op (d : IdlDefn)
    (hty : d.type = "operation" ∨ d.type = "constructor") (hnm : d.name ≠ "") :
    getDefnName d = d.name := by
  rcases hty with h | h <;> rw [getDefnName, h] <;> simp [hnm]

theorem getDefnName_container (d : IdlDefn)
    (hty : d.type = "callback interface" ∨ d.type = "dictionary" ∨
      d.type = "interface" ∨ d.type = "interface mixin") (hnm : d.name ≠ "") :
    getDefnName d = d.name := by
  rcases hty with h | h | h | h <;> rw [getDefnName, h] <;> simp [hnm]

theorem resolveNameAndId_op (st : IDLNameMap) (d : IdlDefn) (parent : String)
    (hty : d.type = "operation" ∨ d.type = "constructor") :
    resolveNameAndId st d parent =
      (let name := getDefnName d
       let idlId := getIdlId name parent
       let ov := resolveOverload st.operationNames name parent
       if ov.1 ≠ "" then
         (⟨name ++ ov.1, idlId ++ ov.1⟩, { st with operationNames := ov.2 })
       else if !d.arguments.isEmpty then
         (⟨name, idlId ++ String.join (d.arguments.map (fun a => "-" ++ jsToLower a))⟩,
           { st with operationNames := ov.2 })
       else
         (⟨name, idlId⟩, { st with operationNames := ov.2 })) := by
  obtain ⟨i0, t0, n0, v0, p0, a0, e0⟩ := d
  rcases hty with h | h <;> (simp only at h; subst h; rfl)

theorem resolveNameAndId_container (st : IDLNameMap) (d : IdlDefn) (parent : String)
    (hty : d.type = "callback interface" ∨ d.type = "dictionary" ∨
      d.type = "interface" ∨ d.type = "interface mixin") :
    resolveNameAndId st d parent =
      (⟨getDefnName d, getIdlId (getDefnName d) parent ++ (resolvePart st.pcounters d).1⟩,
       { st with pcounters := (resolvePart st.pcounters d).2 }) := by
  obtain ⟨i0, t0, n0, v0, p0, a0, e0⟩ := d
  rcases hty with h | h | h | h <;> (simp only at h; subst h; rfl)

theorem resolveOverload_fst (ops : CounterMap) (name parentName : String) :
    (resolveOverload ops name parentName).1 =
      ovSuffix (getNum ops (parentName ++ "." ++ name)) := rfl

theorem resolveOverload_count (ops : CounterMap) (name parentName : String) :
    getNum (resolveOverload ops name parentName).2 (parentName ++ "." ++ name) =
      getNum ops (parentName ++ "." ++ name) + 1 := by
  unfold resolveOverload
  simp only []
  rw [getNum_setNum_self]

theorem resolveNameAndId_memo (st : IDLNameMap) (d : IdlDefn) (p : String) :
    ((resolveNameAndId st d p).2).memo = st.memo := by
  unfold resolveNameAndId
  split <;>
    first
      | rfl
      | (simp only []; split <;> (try split) <;> rfl)

theorem resolveNameAndId_ops_op (st : IDLNameMap) (d : IdlDefn) (p : String)
    (hty : d.type = "operation" ∨ d.type = "constructor") :
    ((resolveNameAndId st d p).2).operationNames =
      (resolveOverload st.operationNames (getDefnName d) p).2 := by
  rw [resolveNameAndId_op st d p hty]
  simp only []
  split
  · rfl
  · split <;> rfl

theorem resolveNameAndId_pc_container (st : IDLNameMap) (d : IdlDefn) (p : String)
    (hty : d.type = "callback interface" ∨ d.type = "dictionary" ∨
      d.type = "interface" ∨ d.type = "interface mixin") :
    ((resolveNameAndId st d p).2).pcounters = (resolvePart st.pcounters d).2 := by
  rw [resolveNameAndId_container st d p hty]

theorem resolveNameAndId_fst_op (st : IDLNameMap) (d : IdlDefn) (p : String)
    (hty : d.type = "operation" ∨ d.type = "constructor") (hnm : d.name ≠ "") :
    (resolveNameAndId st d p).1 =
      ⟨d.name ++ ovSuffix (getNum st.operationNames (p ++ "." ++ d.name)),
        getIdlId d.name p ++
          (if getNum st.operationNames (p ++ "." ++ d.name) = 0
            then argIdSuffix d.arguments
            else ovSuffix (getNum st.operationNames (p ++ "." ++ d.name)))⟩ := by
  rw [resolveNameAndId_op st d p hty]
  simp only []
  rw [getDefnName_op d hty hnm]
  simp only [resolveOverload_fst]
  by_cases h0 : getNum st.operationNames (p ++ "." ++ d.name) = 0
  · rw [h0, ovSuffix_zero]
    rw [if_neg (by simp)]
    by_cases ha : d.arguments.isEmpty
    · rw [if_neg (by simp [ha])]
      have h2 : argIdSuffix d.arguments = "" := by simp [argIdSuffix, ha]
      simp [string_append_empty, h2]
    · rw [if_pos (by simp [ha])]
      have h2 : argIdSuffix d.arguments =
          String.join (d.arguments.map (fun a => "-" ++ jsToLower a)) := by
        simp [argIdSuffix, ha]
      simp [string_append_empty, h2]
  · rw [if_pos (by simpa using ovSuffix_ne_empty h0)]
    rw [if_neg h0]

theorem resolveNameAndId_fst_part (st : IDLNameMap) (d : IdlDefn) (p : String)
    (hty : d.type = "callback interface" ∨ d.type = "dictionary" ∨
      d.type = "interface" ∨ d.type = "interface mixin") (hnm : d.name ≠ "")
    (hpart : d.pflag = true) :
    (resolveNameAndId st d p).1 =
      ⟨d.name, getIdlId d.name p ++
        ("-partial-" ++ jsNatRepr (getNum st.pcounters d.name + 1))⟩ := by
  rw [resolveNameAndId_container st d p hty]
  rw [getDefnName_container d hty hnm]
  unfold resolvePart
  rw [hpart]
  simp

theorem resolvePart_snd_of_part (st : CounterMap) (d : IdlDefn) (hpart : d.pflag = true) :
    (resolvePart st d).2 = setNum st d.name (getNum st d.name + 1) := by
  unfold resolvePart
  rw [hpart]
  simp

/-! ### Helper lemmas: memoization and runs -/

theorem getNameAndId_miss_fst (st : IDLNameMap) (d : IdlDefn) (p : String)
    (hlook : st.memo.lookup d.nodeId = none) :
    (getNameAndId st d p).1 = (resolveNameAndId st d p).1 := by
  unfold getNameAndId
  rw [hlook]

theorem getNameAndId_miss_memo (st : IDLNameMap) (d : IdlDefn) (p : String)
    (hlook : st.memo.lookup d.nodeId = none) :
    ((getNameAndId st d p).2).memo =
      (d.nodeId, (getNameAndId st d p).1) :: st.memo := by
  unfold getNameAndId
  rw [hlook]
  simp only []
  rw [resolveNameAndId_memo]

theorem getNameAndId_miss_ops (st : IDLNameMap) (d : IdlDefn) (p : String)
    (hlook : st.memo.lookup d.nodeId = none) :
    ((getNameAndId st d p).2).operationNames =
      ((resolveNameAndId st d p).2).operationNames := by
  unfold getNameAndId
  rw [hlook]

theorem getNameAndId_miss_pc (st : IDLNameMap) (d : IdlDefn) (p : String)
    (hlook : st.memo.lookup d.nodeId = none) :
    ((getNameAndId st d p).2).pcounters =
      ((resolveNameAndId st d p).2).pcounters := by
  unfold getNameAndId
  rw [hlook]

theorem lookup_cons_ne (m : List (Nat × Resolved)) (b j : Nat) (r : Resolved)
    (hj : j ≠ b) : List.lookup j ((b, r) :: m) = List.lookup j m := by
  simp [List.lookup, show (j == b) = false by simpa using hj]

theorem runAll_get_zero (st : IDLNameMap) (dp : IdlDefn × String)
    (rest : List (IdlDefn × String)) :
    (runAll st (dp :: rest)).1.get? 0 = some (getNameAndId st dp.1 dp.2).1 := rfl

theorem runAll_get_succ (st : IDLNameMap) (dp : IdlDefn × String)
    (rest : List (IdlDefn × String)) (k : Nat) :
    (runAll st (dp :: rest)).1.get? (k + 1) =
      (runAll (getNameAndId st dp.1 dp.2).2 rest).1.get? k := rfl

/-- The main induction for a family of operation/constructor resolutions
sharing one fully-qualified name. -/
theorem runAll_opFamily_get (ty nm parent : String)
    (hty : ty = "operation" ∨ ty = "constructor") (hnm : nm ≠ "")
    (args : Nat → List String) :
    ∀ (n base c : Nat) (st : IDLNameMap),
      (∀ i, i < n → st.memo.lookup (base + i) = none) →
      getNum st.operationNames (parent ++ "." ++ nm) = c →
      ∀ k, k < n →
        (runAll st (opFamilyFrom ty nm parent args base n)).1.get? k =
          some ⟨nm ++ ovSuffix (c + k),
            getIdlId nm parent ++
              (if c + k = 0 then argIdSuffix (args (base + k))
                else ovSuffix (c + k))⟩ := by
  intro n
  induction n with
  | zero => intro base c st _ _ k hk; omega
  | succ n ih =>
    intro base c st hmemo hc k hk
    have hlook : st.memo.lookup base = none := by simpa using hmemo 0 (by omega)
    rw [opFamilyFrom]
    cases k with
    | zero =>
      rw [runAll_get_zero]
      rw [getNameAndId_miss_fst _ _ _ hlook]
      rw [resolveNameAndId_fst_op _ _ _ (by simpa using hty) (by simpa using hnm)]
      simp only [hc, Nat.add_zero]
    | succ k =>
      rw [runAll_get_succ]
      have hmemo2 : ∀ i, i < n →
          ((getNameAndId st ⟨base, ty, nm, "", false, args base, []⟩ parent).2).memo.lookup
            (base + 1 + i) = none := by
        intro i hi
        rw [getNameAndId_miss_memo _ _ _ hlook]
        rw [lookup_cons_ne _ _ _ _ (by dsimp only; omega)]
        have := hmemo (i + 1) (by omega)
        rwa [show base + (i + 1) = base + 1 + i by omega] at this
      have hc2 : getNum ((getNameAndId st ⟨base, ty, nm, "", false, args base, []⟩ parent).2).operationNames
          (parent ++ "." ++ nm) = c + 1 := by
        rw [getNameAndId_miss_ops _ _ _ hlook]
        rw [resolveNameAndId_ops_op _ _ _ (by simpa using hty)]
        rw [getDefnName_op _ (by simpa using hty) (by simpa using hnm)]
        rw [resolveOverload_count]
        simp [hc]
      have := ih (base + 1) (c + 1) _ hmemo2 hc2 k (by omega)
      rw [show c + (k + 1) = c + 1 + k by omega, show base + (k + 1) = base + 1 + k by omega]
      exact this

/-- The main induction for a family of partial container resolutions sharing
one base name. -/
theorem runAll_partFamily_get (ty nm parent : String)
    (hty : ty = "callback interface" ∨ ty = "dictionary" ∨
      ty = "interface" ∨ ty = "interface mixin") (hnm : nm ≠ "") :
    ∀ (n base c : Nat) (st : IDLNameMap),
      (∀ i, i < n → st.memo.lookup (base + i) = none) →
      getNum st.pcounters nm = c →
      ∀ k, k < n →
        (runAll st (partFamilyFrom ty nm parent base n)).1.get? k =
          some ⟨nm, getIdlId nm parent ++ ("-partial-" ++ jsNatRepr (c + k + 1))⟩ := by
  intro n
  induction n with
  | zero => intro base c st _ _ k hk; omega
  | succ n ih =>
    intro base c st hmemo hc k hk
    have hlook : st.memo.lookup base = none := by simpa using hmemo 0 (by omega)
    rw [partFamilyFrom]
    cases k with
    | zero =>
      rw [runAll_get_zero]
      rw [getNameAndId_miss_fst _ _ _ hlook]
      rw [resolveNameAndId_fst_part _ _ _ (by simpa using hty) (by simpa using hnm) rfl]
      simp only [hc, Nat.add_zero]
    | succ k =>
      rw [runAll_get_succ]
      have hmemo2 : ∀ i, i < n →
          ((getNameAndId st ⟨base, ty, nm, "", true, [], []⟩ parent).2).memo.lookup
            (base + 1 + i) = none := by
        intro i hi
        rw [getNameAndId_miss_memo _ _ _ hlook]
        rw [lookup_cons_ne _ _ _ _ (by dsimp only; omega)]
        have := hmemo (i + 1) (by omega)
        rwa [show base + (i + 1) = base + 1 + i by omega] at this
      have hc2 : getNum ((getNameAndId st ⟨base, ty, nm, "", true, [], []⟩ parent).2).pcounters
          nm = c + 1 := by
        rw [getNameAndId_miss_pc _ _ _ hlook]
        rw [resolveNameAndId_pc_container _ _ _ (by simpa using hty)]
        rw [resolvePart_snd_of_part _ _ rfl]
        simp only []
        rw [getNum_setNum_self]
        simp [hc]
      have := ih (base + 1) (c + 1) _ hmemo2 hc2 k (by omega)
      rw [show c + (k + 1) + 1 = c + 1 + k + 1 by omega]
      exact this

end Respec

namespace Respec

/-! ### Memoization lemmas (for idempotence) -/

theorem getNameAndId_cached (st : IDLNameMap) (d : IdlDefn) (p : String) (r : Resolved)
    (h : st.memo.lookup d.nodeId = some r) :
    getNameAndId st d p = (r, st) := by
  unfold getNameAndId
  rw [h]

theorem getNameAndId_self_lookup (st : IDLNameMap) (d : IdlDefn) (p : String) :
    ((getNameAndId st d p).2).memo.lookup d.nodeId = some (getNameAndId st d p).1 := by
  cases hl : st.memo.lookup d.nodeId with
  | some r => rw [getNameAndId_cached st d p r hl]; exact hl
  | none =>
    rw [getNameAndId_miss_memo st d p hl]
    simp [List.lookup]

theorem getNameAndId_preserves_lookup (st : IDLNameMap) (d : IdlDefn) (p : String)
    (j : Nat) (r : Resolved) (h : st.memo.lookup j = some r) :
    ((getNameAndId st d p).2).memo.lookup j = some r := by
  cases hl : st.memo.lookup d.nodeId with
  | some r0 => rw [getNameAndId_cached st d p r0 hl]; exact h
  | none =>
    rw [getNameAndId_miss_memo st d p hl]
    rw [lookup_cons_ne _ _ _ _ (by intro e; rw [e, hl] at h; cases h)]
    exact h

theorem runAll_preserves_lookup (l : List (IdlDefn × String)) :
    ∀ (st : IDLNameMap) (j : Nat) (r : Resolved),
      st.memo.lookup j = some r → ((runAll st l).2).memo.lookup j = some r := by
  induction l with
  | nil => intro st j r h; exact h
  | cons dp rest ih =>
    intro st j r h
    exact ih _ j r (getNameAndId_preserves_lookup st dp.1 dp.2 j r h)

theorem sfx_nil_eq_ovSuffix (k : Nat) :
    (if k = 0 then argIdSuffix [] else ovSuffix k) = ovSuffix k := by
  by_cases h : k = 0 <;> simp [h, argIdSuffix, ovSuffix]

/-! ### The claims -/

/-- C1 (counterexample): two distinct non-partial `interface` definition nodes
with the same name resolve to the same anchor id `idl-def-foo`, so distinct
definition nodes do not always receive distinct anchor identifiers. -/
theorem C1_counterexample :
    ((⟨0, "interface", "Foo", "", false, [], []⟩ : IdlDefn) ≠
        (⟨1, "interface", "Foo", "", false, [], []⟩ : IdlDefn)) ∧
      (runAll freshMap [((⟨0, "interface", "Foo", "", false, [], []⟩ : IdlDefn), ""),
          ((⟨1, "interface", "Foo", "", false, [], []⟩ : IdlDefn), "")]).1.map
          Resolved.idlId =
        ["idl-def-foo", "idl-def-foo"] :=
  ⟨by decide, by decide⟩

/-- C1 (amended): anchor-id uniqueness does not hold for arbitrary distinct
definition nodes, but it does hold inside one overload family: distinct
resolutions of no-argument operation/constructor nodes sharing one
fully-qualified name receive pairwise distinct anchor ids. -/
theorem C1_overload_family_unique (ty nm parent : String)
    (hty : ty = "operation" ∨ ty = "constructor") (hnm : nm ≠ "")
    (n k l : Nat) (hk : k < n) (hl : l < n) (hne : k ≠ l) (rk rl : Resolved)
    (hrk : (runAll freshMap (opFamilyFrom ty nm parent (fun _ => []) 0 n)).1.get? k =
      some rk)
    (hrl : (runAll freshMap (opFamilyFrom ty nm parent (fun _ => []) 0 n)).1.get? l =
      some rl) :
    rk.idlId ≠ rl.idlId := by
  rw [runAll_opFamily_get ty nm parent hty hnm (fun _ => []) n 0 0 freshMap
    (fun i _ => rfl) rfl k hk] at hrk
  rw [runAll_opFamily_get ty nm parent hty hnm (fun _ => []) n 0 0 freshMap
    (fun i _ => rfl) rfl l hl] at hrl
  injection hrk with hrk
  injection hrl with hrl
  subst hrk
  subst hrl
  dsimp only
  simp only [Nat.zero_add]
  intro he
  rw [sfx_nil_eq_ovSuffix, sfx_nil_eq_ovSuffix] at he
  exact hne (ovSuffix_inj (string_append_cancel_left he))

/-- C1 (witness for the amended theorem): in a fresh run of two operations
`p.foo`, the first and second anchor ids differ. -/
theorem C1_witness :
    (⟨"foo", "idl-def-p-foo"⟩ : Resolved).idlId ≠
      (⟨"foo!overload-1", "idl-def-p-foo!overload-1"⟩ : Resolved).idlId :=
  C1_overload_family_unique "operation" "foo" "p" (Or.inl rfl) (by decide)
    2 0 1 (by decide) (by decide) (by decide) _ _ (by decide) (by decide)

/-- C2: `addDataCiteToTerms` does not complete for every accepted candidate:
an accepted candidate whose `uri` contains a path separator makes the loop
body throw a `TypeError` (`uri.split("/", 1)[1]` is `undefined`), aborting
the run instead of degrading gracefully. -/
theorem C2_addDataCite_throws :
    addDataCiteEntries [⟨"dom/interface.html#node", "dom", "dfn", true⟩]
      [⟨[], false⟩] = .thrown "TypeError: cannot read split of undefined" := by
  decide

/-- C3: for a candidate uri containing a path separator the code throws
instead of writing the metadata prescribed by the spec formula (the portion
after the first separator split on `#`). -/
theorem C3_citePath_divergence :
    addDataCiteStep [⟨"dom/interface.html#node", "dom", "dfn", true⟩] ⟨[], false⟩ =
        .thrown "TypeError: cannot read split of undefined" ∧
      citeMetaSpec "dom/interface.html#node" "dom" =
        ⟨"dom", "interface.html", some "node"⟩ :=
  ⟨by decide, by decide⟩

/-- C4: at an input satisfying the claim's premises (no existing definition,
non-empty resolved name, type not `typedef`, not partial, not default
`toJSON`), `defineIdlName` synthesizes and registers a new definition and
emits no warning, instead of the claimed one-warning unlinked reference. -/
theorem C4_new_definition_without_warning :
    (defineIdlName freshMap ⟨0, "interface", "Baz", "", false, [], []⟩ "" false).1 =
        ⟨.newDefinition, false, true⟩ ∧
      (getNameAndId freshMap ⟨0, "interface", "Baz", "", false, [], []⟩ "").1.name =
        "Baz" :=
  ⟨by decide, by decide⟩

/-- C5 (counterexample): the first resolution of an operation with an
argument does add a suffix to the anchor id (`-x`), contradicting the claim
that the first resolution adds no suffix to name or anchor id. -/
theorem C5_counterexample :
    (runAll freshMap (opFamilyFrom "operation" "foo" "Fighters" (fun _ => ["x"]) 0 1)).1.map
        Resolved.idlId = ["idl-def-fighters-foo-x"] ∧
      ("idl-def-fighters-foo-x" : String) ≠ getIdlId "foo" "Fighters" :=
  ⟨by decide, by decide⟩

/-- C5 (amended): in a fresh run of operation/constructor nodes sharing one
fully-qualified name, the first resolution adds no suffix to the name and no
suffix to the anchor id unless it has arguments (then the anchor id gains one
`-argname` segment per argument), and the k-th resolution for k ≥ 2 appends
`!overload-<k-1>` to both name and anchor id. -/
theorem C5_overload_suffixes (ty nm parent : String)
    (hty : ty = "operation" ∨ ty = "constructor") (hnm : nm ≠ "")
    (args : Nat → List String) (n k : Nat) (hk : k < n) :
    (runAll freshMap (opFamilyFrom ty nm parent args 0 n)).1.get? k =
      some ⟨nm ++ ovSuffix k,
        getIdlId nm parent ++ (if k = 0 then argIdSuffix (args k) else ovSuffix k)⟩ := by
  have := runAll_opFamily_get ty nm parent hty hnm args n 0 0 freshMap
    (fun i _ => rfl) rfl k hk
  simpa using this

/-- C5 (witness): three no-argument operations named `foo` resolve in order,
with the third receiving `!overload-2` on its name and anchor id. -/
theorem C5_witness :
    (runAll freshMap (opFamilyFrom "operation" "foo" "Fighters" (fun _ => []) 0 3)).1.get? 2 =
      some ⟨"foo" ++ ovSuffix 2,
        getIdlId "foo" "Fighters" ++ (if 2 = 0 then argIdSuffix [] else ovSuffix 2)⟩ :=
  C5_overload_suffixes "operation" "foo" "Fighters" (Or.inl rfl) (by decide)
    (fun _ => []) 3 2 (by decide)

/-- C6: with exactly one candidate, a non-empty `specs` constraint that does
not contain the candidate's spec rejects it (offending, diagnostic, nothing
accepted); an empty `specs` constraint accepts it. -/
theorem C6_single_candidate (c : Candidate) (specs : List String) :
    (specs ≠ [] → specs.contains c.spec = false →
        disambiguate [c] specs = ⟨none, true, true⟩) ∧
      (specs = [] → disambiguate [c] specs = ⟨some c, false, false⟩) := by
  constructor
  · intro h1 h2
    have hlen : (specs.length != 0) = true := by
      simp [List.length_eq_zero, h1]
    have h3 : c.spec ∉ specs := by simpa using h2
    simp [disambiguate, hlen, h3]
  · intro h
    subst h
    simp [disambiguate]

/-- C6 (witness): a candidate from spec `A` is rejected under constraint
`["B"]` and accepted under the empty constraint. -/
theorem C6_witness :
    disambiguate [⟨"u", "A", "dfn", true⟩] ["B"] = ⟨none, true, true⟩ ∧
      disambiguate [⟨"u", "A", "dfn", true⟩] [] =
        ⟨some ⟨"u", "A", "dfn", true⟩, false, false⟩ :=
  ⟨(C6_single_candidate ⟨"u", "A", "dfn", true⟩ ["B"]).1 (by decide) (by decide),
   (C6_single_candidate ⟨"u", "A", "dfn", true⟩ []).2 rfl⟩

/-- C7: with two or more candidates, disambiguation always rejects: the
element is marked offending, a diagnostic is logged and no candidate is
accepted, whatever the `specs` constraint. -/
theorem C7_multi_candidate (data : List Candidate) (specs : List String)
    (h : 2 ≤ data.length) :
    disambiguate data specs = ⟨none, true, true⟩ := by
  match data with
  | [] => simp at h
  | [c] => simp at h
  | c1 :: c2 :: rest => simp [disambiguate]

/-- C7 (witness): two candidates are rejected even when one matches the
constraint. -/
theorem C7_witness :
    disambiguate [⟨"u1", "A", "dfn", true⟩, ⟨"u2", "B", "dfn", true⟩] ["A"] =
      ⟨none, true, true⟩ :=
  C7_multi_candidate _ _ (by decide)

/-- C8: `getNameAndId` is idempotent: after resolving a node once, any
interleaved resolutions of other nodes leave its memo entry intact, and a
second call for the node returns the first result and the state (memo and
both counter dictionaries) completely unchanged. -/
theorem C8_getNameAndId_idempotent (st : IDLNameMap) (d : IdlDefn) (p : String)
    (others : List (IdlDefn × String)) :
    getNameAndId (runAll ((getNameAndId st d p).2) others).2 d p =
      ((getNameAndId st d p).1, (runAll ((getNameAndId st d p).2) others).2) :=
  getNameAndId_cached _ d p _
    (runAll_preserves_lookup others _ d.nodeId _ (getNameAndId_self_lookup st d p))

/-- C9: in a fresh run of partial container definitions sharing one base
name, the k-th (1-based) resolution's anchor id is the base id followed by
`-partial-<k>` (increment-then-use). -/
theorem C9_partial_suffixes (ty nm parent : String)
    (hty : ty = "callback interface" ∨ ty = "dictionary" ∨
      ty = "interface" ∨ ty = "interface mixin") (hnm : nm ≠ "")
    (n k : Nat) (hk : k < n) :
    (runAll freshMap (partFamilyFrom ty nm parent 0 n)).1.get? k =
      some ⟨nm, getIdlId nm parent ++ ("-partial-" ++ jsNatRepr (k + 1))⟩ := by
  have := runAll_partFamily_get ty nm parent hty hnm n 0 0 freshMap
    (fun i _ => rfl) rfl k hk
  simpa using this

/-- C9 (witness): two top-level partial dictionaries named `Bar` receive the
suffixes `-partial-1` and `-partial-2` in order. -/
theorem C9_witness :
    ((runAll freshMap (partFamilyFrom "dictionary" "Bar" "" 0 2)).1.get? 0 =
        some ⟨"Bar", getIdlId "Bar" "" ++ ("-partial-" ++ jsNatRepr 1)⟩) ∧
      ((runAll freshMap (partFamilyFrom "dictionary" "Bar" "" 0 2)).1.get? 1 =
        some ⟨"Bar", getIdlId "Bar" "" ++ ("-partial-" ++ jsNatRepr 2)⟩) :=
  ⟨C9_partial_suffixes "dictionary" "Bar" "" (Or.inr (Or.inl rfl)) (by decide) 2 0
      (by decide),
   C9_partial_suffixes "dictionary" "Bar" "" (Or.inr (Or.inl rfl)) (by decide) 2 1
      (by decide)⟩

/-- C10: the missing-definition warning in `defineIdlName` is unreachable:
the unlinked-anchor branch is entered only for a partial node with no
existing definition, and exactly there the warning guard is false, so
`showInlineWarning` is never invoked from this function. -/
theorem C10_warning_unreachable (st : IDLNameMap) (d : IdlDefn) (parent : String)
    (dfnFound : Bool) :
    ((defineIdlName st d parent dfnFound).1).warned = false := by
  unfold defineIdlName
  cases dfnFound with
  | true => simp
  | false =>
    simp only [Bool.false_eq_true, if_false]
    split
    · rfl
    · split
      · rfl
      · rename_i h2
        have hp : d.pflag = true := by
          cases hpf : d.pflag
          · rw [hpf] at h2; simp at h2
          · rfl
        simp [hp]

end Respec
